import Mathlib

set_option maxHeartbeats 1000000

/-!
Verification of the crawl-analyze-score pipeline of the VirtuNova SEO audit
toolkit (src/seo_audit_tool_extended.py) against its specification.

The Python source is shallowly embedded below.  Strings are modelled as Lean
strings (lists of characters), Python dicts whose key set is fixed by the code
are modelled as structures, Python `None` as `Option`, and the pieces of
`urllib.parse` that `normalize_url` / `is_same_origin` rely on are modelled
character-by-character after CPython's `urlsplit` / `urlunsplit` / `urljoin`
(the `params` component of `urlparse` is folded into the path, which is
observationally equal for `geturl` and `urljoin`).
-/

namespace SeoAudit

/-! Section: Character-level URL parsing (model of urllib.parse) -/

/-- Characters CPython accepts inside a URL scheme after its first character. -/
def scheme_chars (c : Char) : Bool :=
  c.isAlphanum || c == '+' || c == '-' || c == '.'

/-- CPython urlsplit removes tab, carriage-return and newline characters from
its inputs before parsing. -/
def removeUnsafeBytes (s : List Char) : List Char :=
  s.filter fun c => decide (c ≠ '\t' ∧ c ≠ '\r' ∧ c ≠ '\n')

/-- Split a character list at the first occurrence of sep, like Python's
str.split(sep, 1); none when sep does not occur. -/
def breakOn (sep : Char) : List Char → Option (List Char × List Char)
  | [] => none
  | c :: cs =>
    if c = sep then some ([], cs)
    else
      match breakOn sep cs with
      | some (a, b) => some (c :: a, b)
      | none => none

/-- Scheme detection of CPython urlsplit: the part before the first colon is
taken as the scheme when it starts with an ASCII letter and continues with
scheme characters; otherwise the default scheme is kept. -/
def splitSchemeC (url dscheme : List Char) : List Char × List Char :=
  match breakOn ':' url with
  | some (before, after) =>
    match before with
    | [] => (dscheme, url)
    | b0 :: btl =>
      if b0.isAlpha = true ∧ btl.all scheme_chars = true then
        ((b0 :: btl).map Char.toLower, after)
      else (dscheme, url)
  | none => (dscheme, url)

/-- CPython _splitnetloc: the netloc extends to the next '/', '?' or '#'. -/
def splitNetlocGo : List Char → List Char × List Char
  | [] => ([], [])
  | c :: cs =>
    if c = '/' ∨ c = '?' ∨ c = '#' then ([], c :: cs)
    else
      let p := splitNetlocGo cs
      (c :: p.1, p.2)

/-- A netloc is only present when the remainder starts with two slashes. -/
def splitNetlocTop (l : List Char) : List Char × List Char :=
  match l with
  | '/' :: '/' :: rest => splitNetlocGo rest
  | _ => ([], l)

/-- Split at the first occurrence of sep, keeping everything when absent
(Python url.split(sep, 1) used for the fragment and the query). -/
def splitAtChar (sep : Char) (l : List Char) : List Char × List Char :=
  match breakOn sep l with
  | some (a, b) => (a, b)
  | none => (l, [])

/-- The five components of a parsed URL (scheme, netloc, path, query,
fragment); the params component of urlparse is folded into the path. -/
structure SplitC where
  scheme : List Char
  netloc : List Char
  path : List Char
  query : List Char
  fragment : List Char
deriving DecidableEq, Repr

/-- Model of CPython urllib.parse.urlsplit with allow_fragments=True and a
default scheme (CPython splits the fragment before the query). -/
def urlsplitC (url0 dscheme0 : List Char) : SplitC :=
  let url := removeUnsafeBytes url0
  let dscheme := removeUnsafeBytes dscheme0
  let sp := splitSchemeC url dscheme
  let np := splitNetlocTop sp.2
  let fp := splitAtChar '#' np.2
  let qp := splitAtChar '?' fp.1
  ⟨sp.1, np.1, qp.1, qp.2, fp.2⟩

/-- Model of CPython urllib.parse.urlunsplit, i.e. geturl on a parse result. -/
def urlunsplitC (r : SplitC) : List Char :=
  let u0 := r.path
  let u1 :=
    if r.netloc ≠ [] ∨ u0.take 2 = ['/', '/'] then
      '/' :: '/' :: (r.netloc ++ (if u0 ≠ [] ∧ u0.take 1 ≠ ['/'] then '/' :: u0 else u0))
    else u0
  let u2 := if r.scheme ≠ [] then r.scheme ++ ':' :: u1 else u1
  let u3 := if r.query ≠ [] then u2 ++ '?' :: r.query else u2
  if r.fragment ≠ [] then u3 ++ '#' :: r.fragment else u3

/-- Schemes that allow relative resolution (CPython uses_relative). -/
def uses_relative : List String :=
  ["", "ftp", "http", "gopher", "nntp", "imap", "wais", "file", "https",
   "shttp", "mms", "prospero", "rtsp", "rtspu", "sftp", "svn", "svn+ssh",
   "ws", "wss"]

/-- Schemes that carry a network location (CPython uses_netloc). -/
def uses_netloc : List String :=
  ["", "ftp", "http", "gopher", "nntp", "telnet", "imap", "wais", "file",
   "mms", "https", "shttp", "snews", "prospero", "rtsp", "rtspu", "rsync",
   "svn", "svn+ssh", "sftp", "nfs", "git", "git+ssh", "ws", "wss"]

/-- Python str.split('/'). -/
def splitSlash : List Char → List (List Char)
  | [] => [[]]
  | c :: cs =>
    let r := splitSlash cs
    if c = '/' then [] :: r
    else
      match r with
      | h :: t => (c :: h) :: t
      | [] => [[c]]

/-- Python '/'.join. -/
def joinSlash : List (List Char) → List Char
  | [] => []
  | [x] => x
  | x :: xs => x ++ '/' :: joinSlash xs

/-- CPython urljoin drops empty interior segments of the merged path:
segments[1:-1] = filter(None, segments[1:-1]). -/
def filterMiddle (segs : List (List Char)) : List (List Char) :=
  match segs with
  | [] => []
  | [x] => [x]
  | x :: xs => x :: ((xs.dropLast.filter fun s => decide (s ≠ [])) ++ [xs.getLast?.getD []])

/-- The dot-segment resolution loop of CPython urljoin ('..' pops, '.' is
skipped, popping an empty stack is ignored). -/
def resolveSegs (segs : List (List Char)) : List (List Char) :=
  segs.foldl
    (fun acc seg =>
      if seg = ['.', '.'] then acc.dropLast
      else if seg = ['.'] then acc
      else acc ++ [seg])
    []

/-- Model of CPython urllib.parse.urljoin with allow_fragments=True. -/
def urljoinC (base url : List Char) : List Char :=
  if base = [] then url
  else if url = [] then base
  else
    let b := urlsplitC base []
    let r := urlsplitC url b.scheme
    if r.scheme ≠ b.scheme ∨ ¬ uses_relative.contains (String.mk r.scheme) then url
    else if uses_netloc.contains (String.mk r.scheme) ∧ r.netloc ≠ [] then
      urlunsplitC ⟨r.scheme, r.netloc, r.path, r.query, r.fragment⟩
    else
      let netloc := if uses_netloc.contains (String.mk r.scheme) then b.netloc else r.netloc
      if r.path = [] then
        let query := if r.query = [] then b.query else r.query
        urlunsplitC ⟨r.scheme, netloc, b.path, query, r.fragment⟩
      else
        let base_parts0 := splitSlash b.path
        let base_parts :=
          if base_parts0.getLast?.getD [] ≠ [] then base_parts0.dropLast else base_parts0
        let segments :=
          if r.path.take 1 = ['/'] then splitSlash r.path
          else filterMiddle (base_parts ++ splitSlash r.path)
        let resolved0 := resolveSegs segments
        let resolved :=
          if segments.getLast?.getD [] = ['.'] ∨ segments.getLast?.getD [] = ['.', '.'] then
            resolved0 ++ [[]]
          else resolved0
        let joined := joinSlash resolved
        urlunsplitC ⟨r.scheme, netloc, (if joined = [] then ['/'] else joined), r.query, r.fragment⟩

/-- String-level urljoin, as called on line 53 of the source. -/
def urljoin (base url : String) : String := String.mk (urljoinC base.data url.data)

/-- String-level urlparse (five components, params folded into the path). -/
def urlparse (url scheme : String) : SplitC := urlsplitC url.data scheme.data

/-- geturl of a parse result. -/
def geturl (r : SplitC) : String := String.mk (urlunsplitC r)

/-- Python str.startswith. -/
def startsWithC (l pre : List Char) : Bool := l.take pre.length == pre

/-- Source: normalize_url (lines 50-53).  Rejects falsy href and the
"javascript:", "mailto:" and "#" prefixes; otherwise resolves href against
base and returns the resolved URL with its fragment replaced by the empty
string. -/
def normalize_url (base href : String) : Option String :=
  if href.data = [] ∨ startsWithC href.data "javascript:".data = true
      ∨ startsWithC href.data "mailto:".data = true
      ∨ startsWithC href.data "#".data = true then
    none
  else
    some (geturl { urlsplitC (urljoinC base.data href.data) [] with fragment := [] })

/-- Source: is_same_origin (lines 56-58); true iff the parsed scheme and
netloc pairs coincide. -/
def is_same_origin (a b : String) : Bool :=
  let pa := urlparse a ""
  let pb := urlparse b ""
  pa.scheme == pb.scheme && pa.netloc == pb.netloc

/-! Section: JSON values, the JSON-LD part of analyze_html, and validate_json_ld -/

/-- Parsed JSON values, as produced by json.loads: objects (Python dicts with
string keys), arrays, strings, numbers, booleans and null. -/
inductive Json where
  | obj (fields : List (String × Json))
  | arr (xs : List Json)
  | str (s : String)
  | num (n : Int)
  | bool (b : Bool)
  | null

/-- Python isinstance(b, dict). -/
def isDict : Json → Bool
  | Json.obj _ => true
  | _ => false

/-- Python key-membership test k in b for a dict's field list. -/
def hasKeyF (fields : List (String × Json)) (k : String) : Bool :=
  fields.any fun kv => kv.1 == k

/-- A script element as the analyzer sees it: its type attribute and its text
content (s.string, None when the element has no single text child). -/
structure ScriptTag where
  typeAttr : Option String
  content : Option String
deriving DecidableEq

/-- The raw-text stub kept for a JSON-LD block that failed to parse
(line 96): the dict with the single key "raw" holding the first 500
characters of the block. -/
def rawStub (c : String) : Json := Json.obj [("raw", Json.str (c.take 500))]

/-- Source: the json_ld extraction of analyze_html (lines 90-97).  The JSON
parser is a parameter standing for json.loads: json.loads c succeeds with
value j iff parse c = some j.  Scripts are those matched by
find_all("script", type="application/ld+json"); a script whose string is
None or empty is skipped by the `if s.string` guard. -/
def json_ld_blocks (parse : String → Option Json) (scripts : List ScriptTag) : List Json :=
  (scripts.filter fun s => s.typeAttr == some "application/ld+json").filterMap fun s =>
    match s.content with
    | some c =>
      if c = "" then none
      else some (match parse c with
                 | some j => j
                 | none => rawStub c)
    | none => none

/-- The issue strings validate_json_ld produces for one block (lines 118-125):
a dict missing both "@context" and "@graph" is flagged "missing @context", a
dict missing both "@type" and "@graph" is flagged "missing @type", and a
non-dict block is flagged "not a dict". -/
def issueStrings (b : Json) : List String :=
  match b with
  | Json.obj fields =>
    (if hasKeyF fields "@context" = false ∧ hasKeyF fields "@graph" = false then
       ["missing @context"] else []) ++
    (if hasKeyF fields "@type" = false ∧ hasKeyF fields "@graph" = false then
       ["missing @type"] else [])
  | _ => ["not a dict"]

/-- Source: the enumerate loop of validate_json_ld (lines 116-126), with the
running index made explicit; each issue dict is modelled as the pair of its
"index" and "issue" values. -/
def validateFrom : Nat → List Json → List (Nat × String)
  | _, [] => []
  | i, b :: bs => (issueStrings b).map (fun s => (i, s)) ++ validateFrom (i + 1) bs

/-- Source: validate_json_ld (lines 116-126). -/
def validate_json_ld (blocks : List Json) : List (Nat × String) :=
  validateFrom 0 blocks

/-! Section: The images part of analyze_html -/

/-- An img element as the analyzer sees it: its src and alt attributes. -/
structure ImgTag where
  src : Option String
  alt : Option String
deriving DecidableEq

/-- Python truthiness of an optional string attribute value (i.get("alt")):
falsy when the attribute is absent or the empty string. -/
def truthyOpt : Option String → Bool
  | some s => s ≠ ""
  | none => false

/-- Source: imgs_missing_alt (line 100), the src attributes of the img
elements whose alt attribute is falsy. -/
def imgs_missing_alt (imgs : List ImgTag) : List (Option String) :=
  (imgs.filter fun i => truthyOpt i.alt = false).map fun i => i.src

/-- Source: result["images"] (line 101), the dict literal with exactly the
keys "total" and "missing_alt_count". -/
def images_result (imgs : List ImgTag) : Json :=
  Json.obj [("total", Json.num imgs.length),
            ("missing_alt_count", Json.num (imgs_missing_alt imgs).length)]

/-- Whether any value of a JSON object is an array (used to state that the
images dict retains no list of source URLs). -/
def hasArrayValue : Json → Bool
  | Json.obj fields => fields.any fun kv =>
      match kv.2 with
      | Json.arr _ => true
      | _ => false
  | _ => false

/-! Section: The scorer -/

/-- The fields of the analysis dict that score_page reads (lines 230-237),
with the lengths and counts produced by analyze_html (always present and
numeric, so Python truthiness is equality with 0). -/
structure Analysis where
  title_length : Nat
  meta_description_length : Nat
  h1_count : Nat
  word_count : Nat
deriving DecidableEq

/-- The field of the fetch dict that score_page reads: fetch_info.get
("status"), None when the fetch failed. -/
structure FetchInfo where
  status : Option Int
deriving DecidableEq

/-- Python truthiness-or-error test of line 238: not fetch_info.get("status")
or fetch_info.get("status") >= 400 (None and 0 are falsy). -/
def http_error : Option Int → Bool
  | none => true
  | some s => s == 0 || decide (400 ≤ s)

/-- How Python's f-string prints fetch_info.get("status"). -/
def status_repr : Option Int → String
  | none => "None"
  | some s => toString s

/-- The score / reasons pair returned by score_page. -/
structure PageScore where
  score : Int
  reasons : List String
deriving DecidableEq

/-- Source: score_page (lines 228-240). -/
def score_page (analysis : Analysis) (fetch_info : FetchInfo) : PageScore :=
  let p0 : Int × List String := (100, [])
  let p1 := if analysis.title_length = 0 then
      (p0.1 - 20, p0.2 ++ ["Missing title"]) else p0
  let p2 := if analysis.meta_description_length = 0 then
      (p1.1 - 10, p1.2 ++ ["Missing meta description"]) else p1
  let p3 := if analysis.h1_count = 0 then
      (p2.1 - 10, p2.2 ++ ["Missing H1"]) else p2
  let p4 := if analysis.word_count < 100 then
      (p3.1 - 5, p3.2 ++ ["Low word count (<100)"]) else p3
  let p5 := if http_error fetch_info.status = true then
      ((0 : Int), p4.2 ++ ["HTTP error: " ++ status_repr fetch_info.status]) else p4
  ⟨max 0 p5.1, p5.2⟩

/-- The four deficiency reasons in the order score_page appends them. -/
def length_reasons (analysis : Analysis) : List String :=
  (if analysis.title_length = 0 then ["Missing title"] else []) ++
  (if analysis.meta_description_length = 0 then ["Missing meta description"] else []) ++
  (if analysis.h1_count = 0 then ["Missing H1"] else []) ++
  (if analysis.word_count < 100 then ["Low word count (<100)"] else [])

/-! Section: The canonical-chain checker -/

/-- Source: the while loop of canonical_chain_check (lines 135-139).  The
page map is the association list of page URL to the canonical value of the
page's analysis (none when the page has no analysis or no canonical key,
matching data.get("analysis", dict()).get("canonical")); the loop extends
the chain while the next canonical is truthy, differs from the chain's last
element, belongs to the crawled map, and the chain is shorter than 20. -/
def followChainGo (pages : List (String × Option String)) : Nat → List String → Option String → List String
  | _, chain, none => chain
  | 0, chain, some _ => chain
  | fuel + 1, chain, some n =>
    if n ≠ "" ∧ chain.getLast? ≠ some n ∧ (pages.lookup n).isSome = true ∧ chain.length < 20 then
      followChainGo pages fuel (chain ++ [n]) ((pages.lookup n).getD none)
    else chain

/-- The while loop started on a chain.  Every iteration requires
chain.length < 20 and lengthens the chain by one, so it runs fewer than
20 - chain.length times; passing that number as structural fuel is exact:
when the fuel reaches 0 the length has reached 20 and the loop condition is
false anyway. -/
def followChain (pages : List (String × Option String)) (chain : List String) (nxt : Option String) : List String :=
  followChainGo pages (20 - chain.length) chain nxt

/-- Source: canonical_chain_check (lines 129-142). -/
def canonical_chain_check (pages : List (String × Option String)) : List (List String) :=
  pages.foldl
    (fun chains p =>
      match p.2 with
      | none => chains
      | some c =>
        if c = "" then chains
        else
          let chain := followChain pages [p.1] (some c)
          if chain.length > 1 then chains ++ [chain] else chains)
    []

/-! Section: The crawler

The crawler's shared mutable state is the to-visit queue, the seen set and
the results map; fetch I/O is the only suspension point of a worker, so the
dequeue and the following record-and-enqueue block are atomic and a crawl is
an interleaving of such worker iterations.  One iteration is modelled by
crawlStep; the network is an oracle giving, per URL, the fetch status, the
response text and the href attributes of the anchor elements found in it
(soup.find_all("a", href=True)). -/

/-- A fetch outcome as the worker sees it: resp.get("status") (None on
error), resp.get("text") ("" standing for absent or empty), and the href
attributes of the response body's anchors. -/
structure FetchRes where
  status : Option Int
  text : String
  hrefs : List String

/-- The crawler state: the to-visit FIFO deque, the seen set (a list kept
duplicate-free by the membership guard before insertion), and the keys of
self.results in insertion order. -/
structure CrawlState where
  to_visit : List String
  seen : List String
  results : List String

/-- Python truthiness test of line 178: resp.get("status") and
resp.get("text"). -/
def resp_ok (r : FetchRes) : Bool :=
  (match r.status with
   | none => false
   | some s => s != 0) && r.text != ""

/-- One href of the link-discovery loop (lines 183-186); st is the pair
(seen, to_visit). -/
def enqueue_one (seed : String) (max_pages : Nat) (base : String)
    (st : List String × List String) (a : String) : List String × List String :=
  match normalize_url base a with
  | none => st
  | some n =>
    if n ≠ "" ∧ is_same_origin seed n = true ∧ n ∉ st.1 ∧ st.1.length < max_pages then
      (st.1 ++ [n], st.2 ++ [n])
    else st

/-- Source: the link-discovery loop of SEOCrawler.run (lines 182-186). -/
def enqueue_links (seed : String) (max_pages : Nat) (base : String)
    (hrefs : List String) (st : List String × List String) : List String × List String :=
  hrefs.foldl (enqueue_one seed max_pages base) st

/-- Source: one iteration of the worker loop of SEOCrawler.run
(lines 172-186); a no-op when the queue is empty (the worker exits). -/
def crawlStep (web : String → FetchRes) (seed : String) (max_pages : Nat)
    (s : CrawlState) : CrawlState :=
  match s.to_visit with
  | [] => s
  | url :: rest =>
    let resp := web url
    let results := if url ∈ s.results then s.results else s.results ++ [url]
    if resp_ok resp = true then
      let p := enqueue_links seed max_pages url resp.hrefs (s.seen, rest)
      ⟨p.2, p.1, results⟩
    else ⟨rest, s.seen, results⟩

/-- Source: SEOCrawler.__init__ (lines 160-165): the queue and the seen set
start holding the seed, the results map starts empty. -/
def initState (seed : String) : CrawlState := ⟨[seed], [seed], []⟩

/-- The crawl state after n worker iterations. -/
def crawlRun (web : String → FetchRes) (seed : String) (max_pages : Nat) : Nat → CrawlState
  | 0 => initState seed
  | n + 1 => crawlStep web seed max_pages (crawlRun web seed max_pages n)

/-- A web oracle on which every page responds 200 with a body linking one
cross-origin URL and one same-origin path. -/
def webA : String → FetchRes :=
  fun _ => ⟨some 200, "x", ["https://evil.com/z", "/y"]⟩

/-- A web oracle on which every fetch fails. -/
def webErr : String → FetchRes := fun _ => ⟨none, "", []⟩

example : normalize_url "https://a.com/x" "#top" = none := rfl
example : normalize_url "https://a.com/x" "/y" = some "https://a.com/y" := rfl
example : normalize_url "https://a.com/x" "y#frag" = some "https://a.com/y" := rfl
example : normalize_url "https://a.com/x" "javascript:void(0)" = none := rfl
example : normalize_url "https://a.com/x" "mailto:a@b.c" = none := rfl
example : normalize_url "https://a.com/x" "" = none := rfl
example : normalize_url "https://a.com/a/b" "../c" = some "https://a.com/c" := rfl
example : normalize_url "https://a.com/x" "https://evil.com/z" = some "https://evil.com/z" := rfl
example : is_same_origin "https://a.com/" "https://a.com/y" = true := rfl
example : is_same_origin "https://a.com/" "https://evil.com/z" = false := rfl
example : is_same_origin "https://a.com/" "http://a.com/" = false := rfl

example :
    json_ld_blocks (fun _ => none) [⟨some "application/ld+json", some "oops"⟩] =
      [rawStub "oops"] := rfl

example : validate_json_ld [rawStub "oops"] =
    [(0, "missing @context"), (0, "missing @type")] := rfl

example : validate_json_ld [Json.arr []] = [(0, "not a dict")] := rfl

example : validate_json_ld [Json.obj [("@type", Json.str "Article")]] =
    [(0, "missing @context")] := rfl

example : score_page ⟨10, 20, 1, 150⟩ ⟨some 200⟩ = ⟨100, []⟩ := rfl

example : score_page ⟨0, 0, 0, 50⟩ ⟨some 200⟩ =
    ⟨55, ["Missing title", "Missing meta description", "Missing H1",
          "Low word count (<100)"]⟩ := rfl

example : score_page ⟨10, 20, 1, 150⟩ ⟨some 404⟩ = ⟨0, ["HTTP error: 404"]⟩ := rfl

example : score_page ⟨10, 20, 1, 150⟩ ⟨none⟩ = ⟨0, ["HTTP error: None"]⟩ := rfl

example : score_page ⟨10, 20, 1, 150⟩ ⟨some 0⟩ = ⟨0, ["HTTP error: 0"]⟩ := rfl

example :
    canonical_chain_check
      [("https://s.com/a", some "https://s.com/b"),
       ("https://s.com/b", some "https://s.com/a")] =
    [["https://s.com/a", "https://s.com/b", "https://s.com/a", "https://s.com/b",
      "https://s.com/a", "https://s.com/b", "https://s.com/a", "https://s.com/b",
      "https://s.com/a", "https://s.com/b", "https://s.com/a", "https://s.com/b",
      "https://s.com/a", "https://s.com/b", "https://s.com/a", "https://s.com/b",
      "https://s.com/a", "https://s.com/b", "https://s.com/a", "https://s.com/b"],
     ["https://s.com/b", "https://s.com/a", "https://s.com/b", "https://s.com/a",
      "https://s.com/b", "https://s.com/a", "https://s.com/b", "https://s.com/a",
      "https://s.com/b", "https://s.com/a", "https://s.com/b", "https://s.com/a",
      "https://s.com/b", "https://s.com/a", "https://s.com/b", "https://s.com/a",
      "https://s.com/b", "https://s.com/a", "https://s.com/b", "https://s.com/a"]] := by
  rfl

example : canonical_chain_check [("a", some "a")] = [] := rfl

example : canonical_chain_check [("a", some "b"), ("b", some "b")] = [["a", "b"]] := rfl

example : (crawlRun webA "https://a.com/" 5 1).results = ["https://a.com/"] := rfl

example : (crawlRun webA "https://a.com/" 5 1).seen = ["https://a.com/", "https://a.com/y"] := rfl

example : (crawlRun webA "https://a.com/" 5 3).results = ["https://a.com/", "https://a.com/y"] := rfl

example : (crawlRun webA "https://a.com/" 5 3).to_visit = [] := rfl

example : (crawlRun webA "https://a.com/" 2 3).seen.length = 2 := rfl

example : (crawlRun webErr "https://a.com/" 0 1).results = ["https://a.com/"] := rfl

/-! Section: Fragment stripping: the URL normalize_url returns contains no '#' -/

lemma toNat_ofNat_valid {n : Nat} (h : n.isValidChar) : (Char.ofNat n).toNat = n := by
  rw [Char.ofNat, dif_pos h]
  rfl

lemma toLower_ne_hash (c : Char) (h : scheme_chars c = true) : Char.toLower c ≠ '#' := by
  intro he
  simp only [Char.toLower] at he
  split at he
  · rename_i hcond
    have hv : (c.toNat + 32).isValidChar := Or.inl (by omega)
    have h35 : ('#' : Char).toNat = 35 := by decide
    have := congrArg Char.toNat he
    rw [toNat_ofNat_valid hv, h35] at this
    omega
  · subst he
    exact absurd h (by decide)

lemma breakOn_some (sep : Char) :
    ∀ l a b : List Char, breakOn sep l = some (a, b) → sep ∉ a ∧ l = a ++ sep :: b := by
  intro l
  induction l with
  | nil => intro a b h; simp [breakOn] at h
  | cons c cs ih =>
    intro a b h
    simp only [breakOn] at h
    split at h
    · rename_i hc
      injection h with hpair
      injection hpair with ha hb
      subst ha
      subst hb
      subst hc
      exact ⟨by simp, rfl⟩
    · rename_i hc
      cases hbr : breakOn sep cs with
      | none => rw [hbr] at h; cases h
      | some p =>
        obtain ⟨a0, b0⟩ := p
        rw [hbr] at h
        injection h with hpair
        injection hpair with ha hb
        subst ha
        subst hb
        obtain ⟨hm, he⟩ := ih a0 b0 hbr
        refine ⟨?_, by rw [List.cons_append, ← he]⟩
        intro hmem
        rcases List.mem_cons.mp hmem with h1 | h1
        · exact hc h1.symm
        · exact hm h1

lemma breakOn_none (sep : Char) :
    ∀ l : List Char, breakOn sep l = none → sep ∉ l := by
  intro l
  induction l with
  | nil => intro _; simp
  | cons c cs ih =>
    intro h
    simp only [breakOn] at h
    split at h
    · cases h
    · rename_i hc
      cases hbr : breakOn sep cs with
      | none =>
        intro hmem
        rcases List.mem_cons.mp hmem with h1 | h1
        · exact hc h1.symm
        · exact ih hbr h1
      | some p => rw [hbr] at h; cases h

lemma splitAtChar_fst_not_mem (sep : Char) (l : List Char) :
    sep ∉ (splitAtChar sep l).1 := by
  unfold splitAtChar
  cases hbr : breakOn sep l with
  | none => exact breakOn_none sep l hbr
  | some p =>
    obtain ⟨a, b⟩ := p
    exact (breakOn_some sep l a b hbr).1

lemma splitAtChar_fst_sub (sep x : Char) (l : List Char)
    (h : x ∈ (splitAtChar sep l).1) : x ∈ l := by
  unfold splitAtChar at h
  cases hbr : breakOn sep l with
  | none => rw [hbr] at h; exact h
  | some p =>
    obtain ⟨a, b⟩ := p
    rw [hbr] at h
    rw [(breakOn_some sep l a b hbr).2]
    exact List.mem_append.mpr (Or.inl h)

lemma splitAtChar_snd_sub (sep x : Char) (l : List Char)
    (h : x ∈ (splitAtChar sep l).2) : x ∈ l := by
  unfold splitAtChar at h
  cases hbr : breakOn sep l with
  | none => rw [hbr] at h; simp at h
  | some p =>
    obtain ⟨a, b⟩ := p
    rw [hbr] at h
    rw [(breakOn_some sep l a b hbr).2]
    exact List.mem_append.mpr (Or.inr (List.mem_cons_of_mem _ h))

lemma splitNetlocGo_no_hash (l : List Char) : '#' ∉ (splitNetlocGo l).1 := by
  induction l with
  | nil => simp [splitNetlocGo]
  | cons c cs ih =>
    simp only [splitNetlocGo]
    split
    · simp
    · rename_i hc
      intro hmem
      rcases List.mem_cons.mp hmem with h1 | h1
      · exact hc (Or.inr (Or.inr h1.symm))
      · exact ih h1

lemma splitNetlocTop_no_hash (l : List Char) : '#' ∉ (splitNetlocTop l).1 := by
  unfold splitNetlocTop
  split
  · exact splitNetlocGo_no_hash _
  · simp

lemma splitSchemeC_no_hash (url dscheme : List Char) (hd : '#' ∉ dscheme) :
    '#' ∉ (splitSchemeC url dscheme).1 := by
  unfold splitSchemeC
  cases hbr : breakOn ':' url with
  | none => exact hd
  | some p =>
    obtain ⟨before, after⟩ := p
    dsimp only
    cases before with
    | nil => exact hd
    | cons b0 btl =>
      dsimp only
      split
      · rename_i hcond
        intro hmem
        obtain ⟨c, hcm, hlow⟩ := List.mem_map.mp hmem
        have hsc : scheme_chars c = true := by
          rcases List.mem_cons.mp hcm with h1 | h1
          · subst h1
            simp [scheme_chars, Char.isAlphanum, hcond.1]
          · exact List.all_eq_true.mp hcond.2 c h1
        exact toLower_ne_hash c hsc hlow
      · exact hd

lemma urlsplitC_no_hash (l : List Char) :
    '#' ∉ (urlsplitC l []).scheme ∧ '#' ∉ (urlsplitC l []).netloc ∧
    '#' ∉ (urlsplitC l []).path ∧ '#' ∉ (urlsplitC l []).query := by
  unfold urlsplitC
  refine ⟨?_, ?_, ?_, ?_⟩
  · exact splitSchemeC_no_hash _ _ (by simp [removeUnsafeBytes])
  · exact splitNetlocTop_no_hash _
  · intro hmem
    exact splitAtChar_fst_not_mem '#' _ (splitAtChar_fst_sub '?' '#' _ hmem)
  · intro hmem
    exact splitAtChar_fst_not_mem '#' _ (splitAtChar_snd_sub '?' '#' _ hmem)

lemma mem_urlunsplitC_no_frag (x : Char) (r : SplitC) (h5 : r.fragment = [])
    (hx : x ∈ urlunsplitC r) :
    x ∈ r.scheme ∨ x ∈ r.netloc ∨ x ∈ r.path ∨ x ∈ r.query ∨ x = ':' ∨ x = '/' ∨ x = '?' := by
  unfold urlunsplitC at hx
  rw [h5] at hx
  rw [if_neg (by simp)] at hx
  split_ifs at hx <;>
    (try simp only [List.mem_append, List.mem_cons, List.not_mem_nil, or_false] at hx) <;>
    tauto

lemma urlunsplitC_no_hash (r : SplitC) (h1 : '#' ∉ r.scheme) (h2 : '#' ∉ r.netloc)
    (h3 : '#' ∉ r.path) (h4 : '#' ∉ r.query) (h5 : r.fragment = []) :
    '#' ∉ urlunsplitC r := by
  intro hmem
  rcases mem_urlunsplitC_no_frag '#' r h5 hmem with h | h | h | h | h | h | h
  · exact h1 h
  · exact h2 h
  · exact h3 h
  · exact h4 h
  · exact absurd h (by decide)
  · exact absurd h (by decide)
  · exact absurd h (by decide)

lemma no_hash_strip (l : List Char) :
    '#' ∉ urlunsplitC { urlsplitC l [] with fragment := [] } := by
  obtain ⟨h1, h2, h3, h4⟩ := urlsplitC_no_hash l
  exact urlunsplitC_no_hash _ h1 h2 h3 h4 rfl

/-- Claim C9: normalize_url returns none exactly when the href is empty or
begins with "javascript:", "mailto:" or "#"; otherwise it resolves the href
against the base URL (urljoin) and strips any fragment component — the
returned URL is the resolution reassembled with an empty fragment and
contains no '#' at all; in particular normalize_url "https://a.com/x" "#top"
is none and normalize_url "https://a.com/x" "/y" is "https://a.com/y". -/
theorem normalize_url_spec :
    (∀ base href : String,
        normalize_url base href = none ↔
          (href.data = [] ∨ startsWithC href.data "javascript:".data = true
            ∨ startsWithC href.data "mailto:".data = true
            ∨ startsWithC href.data "#".data = true)) ∧
    (∀ base href u, normalize_url base href = some u →
        u = geturl { urlsplitC (urljoinC base.data href.data) [] with fragment := [] } ∧
        '#' ∉ u.data) ∧
    normalize_url "https://a.com/x" "#top" = none ∧
    normalize_url "https://a.com/x" "/y" = some "https://a.com/y" := by
  refine ⟨?_, ?_, rfl, rfl⟩
  · intro base href
    unfold normalize_url
    split
    · rename_i hc
      exact ⟨fun _ => hc, fun _ => rfl⟩
    · rename_i hc
      exact ⟨fun h => absurd h (by simp), fun h => absurd h hc⟩
  · intro base href u h
    unfold normalize_url at h
    split at h
    · cases h
    · injection h with he
      refine ⟨he.symm, ?_⟩
      rw [← he]
      exact no_hash_strip _

/-- Witness for normalize_url_spec: on the href "y#frag" the hypothesis of
the positive clause holds and the returned URL has its fragment stripped. -/
theorem normalize_url_spec_witness :
    normalize_url "https://a.com/x" "y#frag" = some "https://a.com/y" ∧
    "https://a.com/y" =
      geturl { urlsplitC (urljoinC "https://a.com/x".data "y#frag".data) [] with fragment := [] } ∧
    '#' ∉ "https://a.com/y".data := by
  have h := normalize_url_spec.2.1 "https://a.com/x" "y#frag" "https://a.com/y" rfl
  exact ⟨rfl, h.1, h.2⟩

/-! Section: Claims about the JSON-LD pipeline (C1, C4) -/

lemma mem_validateFrom (bs : List Json) :
    ∀ (k i : Nat) (s : String),
      (i, s) ∈ validateFrom k bs ↔
        ∃ j b, bs[j]? = some b ∧ i = k + j ∧ s ∈ issueStrings b := by
  induction bs with
  | nil => intro k i s; simp [validateFrom]
  | cons b bs ih =>
    intro k i s
    simp only [validateFrom, List.mem_append, List.mem_map, ih]
    constructor
    · rintro (⟨t, ht, he⟩ | ⟨j, b2, hj, hi, hs⟩)
      · injection he with h1 h2
        exact ⟨0, b, by simp, by omega, h2 ▸ ht⟩
      · refine ⟨j + 1, b2, by simpa using hj, by omega, hs⟩
    · rintro ⟨j, b2, hj, hi, hs⟩
      cases j with
      | zero =>
        left
        simp only [List.getElem?_cons_zero, Option.some.injEq] at hj
        subst hj
        exact ⟨s, hs, by simp [hi]⟩
      | succ j =>
        right
        exact ⟨j, b2, by simpa using hj, by omega, hs⟩

lemma issueStrings_rawStub (c : String) :
    issueStrings (rawStub c) = ["missing @context", "missing @type"] := by
  simp [issueStrings, rawStub, hasKeyF]

/-- Claim C1 (amended): a block that failed to JSON-parse is retained as the
dict with the single key "raw", which validate_json_ld flags with both
"missing @context" and "missing @type" for that index — not with
"not a dict" (that issue is reserved for successfully parsed blocks that are
not JSON objects). -/
theorem validate_json_ld_raw_stub (blocks : List Json) (i : Nat) (c : String)
    (h : blocks[i]? = some (rawStub c)) :
    (i, "missing @context") ∈ validate_json_ld blocks ∧
    (i, "missing @type") ∈ validate_json_ld blocks ∧
    (i, "not a dict") ∉ validate_json_ld blocks := by
  refine ⟨?_, ?_, ?_⟩
  · exact (mem_validateFrom blocks 0 i _).mpr
      ⟨i, rawStub c, h, by omega, by rw [issueStrings_rawStub]; simp⟩
  · exact (mem_validateFrom blocks 0 i _).mpr
      ⟨i, rawStub c, h, by omega, by rw [issueStrings_rawStub]; simp⟩
  · intro hmem
    obtain ⟨j, b, hj, hi, hs⟩ := (mem_validateFrom blocks 0 i _).mp hmem
    have hji : j = i := by omega
    subst hji
    rw [h] at hj
    injection hj with hb
    rw [← hb, issueStrings_rawStub] at hs
    exact absurd hs (by decide)

/-- Witness for validate_json_ld_raw_stub at the one-block list holding the
stub of the unparseable text "oops". -/
theorem validate_json_ld_raw_stub_witness :
    ([rawStub "oops"])[0]? = some (rawStub "oops") ∧
    (0, "missing @context") ∈ validate_json_ld [rawStub "oops"] ∧
    (0, "missing @type") ∈ validate_json_ld [rawStub "oops"] ∧
    (0, "not a dict") ∉ validate_json_ld [rawStub "oops"] := by
  have h := validate_json_ld_raw_stub [rawStub "oops"] 0 "oops" rfl
  exact ⟨rfl, h.1, h.2.1, h.2.2⟩

/-- Counterexample to claim C1 as stated: the page has one ld+json script
whose text "oops" fails to parse; the block is retained as the raw-text stub,
and the issues for that page are "missing @context" and "missing @type" —
the promised "not a dict" issue is not raised. -/
theorem raw_stub_not_flagged_not_a_dict :
    json_ld_blocks (fun _ => none) [⟨some "application/ld+json", some "oops"⟩] =
      [rawStub "oops"] ∧
    validate_json_ld [rawStub "oops"] =
      [(0, "missing @context"), (0, "missing @type")] ∧
    (0, "not a dict") ∉ validate_json_ld [rawStub "oops"] := by
  refine ⟨rfl, rfl, by decide⟩

/-- Truthiness of s.string for a script tag (the guard on line 92). -/
def script_text_truthy (s : ScriptTag) : Bool :=
  match s.content with
  | some c => c ≠ ""
  | none => false

/-- The entry produced for a script that passes the guard: the parsed JSON on
success, the raw-text stub truncated to 500 characters on failure. -/
def ld_entry (parse : String → Option Json) (s : ScriptTag) : Json :=
  match s.content with
  | some c =>
    (match parse c with
     | some j => j
     | none => rawStub c)
  | none => rawStub ""

/-- Claim C4 (amended): every ld+json script element whose text content is
present and non-empty yields exactly one entry of the block list, in document
order — its parsed JSON on success and the 500-character raw-text stub on
parse failure; ld+json scripts with absent or empty text are skipped by the
guard and yield no entry. -/
theorem json_ld_blocks_spec (parse : String → Option Json) (scripts : List ScriptTag) :
    json_ld_blocks parse scripts =
      ((scripts.filter fun s => s.typeAttr == some "application/ld+json").filter
          fun s => script_text_truthy s).map (ld_entry parse) := by
  unfold json_ld_blocks
  induction scripts.filter fun s => s.typeAttr == some "application/ld+json" with
  | nil => rfl
  | cons s t ih =>
    cases hc : s.content with
    | none =>
      simp only [List.filterMap_cons, List.filter_cons, hc, script_text_truthy]
      simpa [hc, script_text_truthy] using ih
    | some c =>
      by_cases hce : c = ""
      · subst hce
        simpa [hc, script_text_truthy] using ih
      · simpa [hc, script_text_truthy, hce, ld_entry] using ih

/-- Counterexample to claim C4 as stated: a script element of MIME type
application/ld+json with no text content is dropped by the `if s.string`
guard and yields no entry at all. -/
theorem empty_ld_script_dropped :
    json_ld_blocks (fun _ => none) [⟨some "application/ld+json", none⟩] = [] ∧
    ([(⟨some "application/ld+json", none⟩ : ScriptTag)].filter
        fun s => s.typeAttr == some "application/ld+json").length = 1 :=
  ⟨rfl, rfl⟩

/-! Section: Claim about the images analysis (C3) -/

/-- Claim C3 (amended): the analyzer's images result flags the img elements
whose alt attribute is absent or empty — missing_alt_count is exactly their
number — but retains only the two numbers "total" and "missing_alt_count";
the source URLs of the flagged images are computed and then discarded, and
no list (in particular no 50-capped missingAltSources list) is stored. -/
theorem images_result_spec (imgs : List ImgTag) :
    images_result imgs =
      Json.obj [("total", Json.num imgs.length),
                ("missing_alt_count",
                 Json.num ((imgs.filter fun i => truthyOpt i.alt = false).length))] ∧
    hasArrayValue (images_result imgs) = false := by
  constructor
  · simp [images_result, imgs_missing_alt]
  · simp [hasArrayValue, images_result]

/-- Counterexample to claim C3 as stated: one image with src "x.png" and no
alt attribute is flagged (missing_alt_count = 1, and its src is in the
intermediate list), yet the images result holds no array value at all — no
missingAltSources list is retained in the analysis. -/
theorem missing_alt_sources_not_retained :
    images_result [⟨some "x.png", none⟩] =
      Json.obj [("total", Json.num 1), ("missing_alt_count", Json.num 1)] ∧
    imgs_missing_alt [⟨some "x.png", none⟩] = [some "x.png"] ∧
    hasArrayValue (images_result [⟨some "x.png", none⟩]) = false :=
  ⟨rfl, rfl, rfl⟩

/-! Section: Claims about the scorer (C5, C6) -/

/-- Claim C5 (amended): for a fetch outcome whose HTTP status is present,
non-zero and below 400, the score is 100 minus cumulative deductions of 20,
10, 10 and 5 for zero title length, zero meta-description length, zero H1
count and word count below 100, with the reasons appended in the table's
order (status 0, although present and below 400, is treated as an HTTP error
by the Python truthiness test, see status_zero_scores_zero). -/
theorem score_page_success (a : Analysis) (s : Int) (h0 : s ≠ 0) (h4 : s < 400) :
    score_page a ⟨some s⟩ =
      ⟨100 - (if a.title_length = 0 then 20 else 0)
          - (if a.meta_description_length = 0 then 10 else 0)
          - (if a.h1_count = 0 then 10 else 0)
          - (if a.word_count < 100 then 5 else 0),
       length_reasons a⟩ := by
  have h1 : (s == 0) = false := by simp [h0]
  have h2 : decide (400 ≤ s) = false := by simp; omega
  have herr : http_error (some s) = false := by simp [http_error, h1, h2]
  simp only [score_page, length_reasons, herr, Bool.false_eq_true, if_false]
  split_ifs <;> rfl

/-- Witness for score_page_success: the two example pages of the claim, at
status 200 — the perfect page scores 100 with no reasons, the fully deficient
page with 50 words scores 55 with the four reasons in table order. -/
theorem score_page_success_witness :
    ((200 : Int) ≠ 0 ∧ (200 : Int) < 400) ∧
    score_page ⟨10, 20, 1, 150⟩ ⟨some 200⟩ = ⟨100, []⟩ ∧
    score_page ⟨0, 0, 0, 50⟩ ⟨some 200⟩ =
      ⟨55, ["Missing title", "Missing meta description", "Missing H1",
            "Low word count (<100)"]⟩ := by
  refine ⟨⟨by decide, by decide⟩, ?_, ?_⟩
  · have h := score_page_success ⟨10, 20, 1, 150⟩ 200 (by decide) (by decide)
    rw [h]
    rfl
  · have h := score_page_success ⟨0, 0, 0, 50⟩ 200 (by decide) (by decide)
    rw [h]
    rfl

/-- Counterexample to claim C5 as stated: HTTP status 0 is present and below
400, yet Python's truthiness test `not fetch_info.get("status")` treats it
as an HTTP error — a page with title, meta description, an H1 and 150 words
at status 0 scores 0 with the reason "HTTP error: 0", not the promised 100
with empty reasons. -/
theorem status_zero_scores_zero :
    (0 : Int) < 400 ∧
    score_page ⟨10, 20, 1, 150⟩ ⟨some 0⟩ = ⟨0, ["HTTP error: 0"]⟩ ∧
    score_page ⟨10, 20, 1, 150⟩ ⟨some 0⟩ ≠ ⟨100, []⟩ :=
  ⟨by decide, rfl, by decide⟩

/-- Claim C6: if the fetch outcome's HTTP status is absent or at least 400,
score_page returns score 0 regardless of the prior deductions and appends the
reason "HTTP error: <status>" after them (an absent status printing as
None). -/
theorem score_page_http_error (a : Analysis) (f : FetchInfo)
    (h : f.status = none ∨ ∃ s, f.status = some s ∧ 400 ≤ s) :
    score_page a f =
      ⟨0, length_reasons a ++ ["HTTP error: " ++ status_repr f.status]⟩ := by
  have herr : http_error f.status = true := by
    rcases h with h | ⟨s, hs, hge⟩
    · rw [h]
      rfl
    · rw [hs]
      simp only [http_error]
      rw [decide_eq_true hge]
      simp
  simp only [score_page, length_reasons, herr, if_true]
  split_ifs <;> rfl

/-- Witness for score_page_http_error, at status 404 and at an absent
status. -/
theorem score_page_http_error_witness :
    ((⟨some 404⟩ : FetchInfo).status = some 404 ∧ (400 : Int) ≤ 404) ∧
    score_page ⟨10, 20, 1, 150⟩ ⟨some 404⟩ = ⟨0, ["HTTP error: 404"]⟩ ∧
    score_page ⟨0, 0, 0, 50⟩ ⟨none⟩ =
      ⟨0, ["Missing title", "Missing meta description", "Missing H1",
           "Low word count (<100)", "HTTP error: None"]⟩ := by
  refine ⟨⟨rfl, by decide⟩, ?_, ?_⟩
  · have h := score_page_http_error ⟨10, 20, 1, 150⟩ ⟨some 404⟩ (Or.inr ⟨404, rfl, by decide⟩)
    rw [h]
    rfl
  · have h := score_page_http_error ⟨0, 0, 0, 50⟩ ⟨none⟩ (Or.inl rfl)
    rw [h]
    rfl

/-! Section: Claims about the canonical-chain checker (C7, C10) -/

/-- The two-page map where each crawled page's canonical is the other. -/
def mutualPagesAB : List (String × Option String) :=
  [("https://s.com/a", some "https://s.com/b"),
   ("https://s.com/b", some "https://s.com/a")]

/-- Claim C7: on two crawled pages with mutual canonicals, canonical_chain_check
terminates (the chain follower is a total function) and returns, for each of
the two start pages, the alternating chain cut off at the 20-element cap, and
both capped chains are reported in the output. -/
theorem mutual_canonical_reaches_cap :
    canonical_chain_check mutualPagesAB =
      [["https://s.com/a", "https://s.com/b", "https://s.com/a", "https://s.com/b",
        "https://s.com/a", "https://s.com/b", "https://s.com/a", "https://s.com/b",
        "https://s.com/a", "https://s.com/b", "https://s.com/a", "https://s.com/b",
        "https://s.com/a", "https://s.com/b", "https://s.com/a", "https://s.com/b",
        "https://s.com/a", "https://s.com/b", "https://s.com/a", "https://s.com/b"],
       ["https://s.com/b", "https://s.com/a", "https://s.com/b", "https://s.com/a",
        "https://s.com/b", "https://s.com/a", "https://s.com/b", "https://s.com/a",
        "https://s.com/b", "https://s.com/a", "https://s.com/b", "https://s.com/a",
        "https://s.com/b", "https://s.com/a", "https://s.com/b", "https://s.com/a",
        "https://s.com/b", "https://s.com/a", "https://s.com/b", "https://s.com/a"]] ∧
    (canonical_chain_check mutualPagesAB).all (fun ch => ch.length == 20) = true :=
  ⟨rfl, rfl⟩

/-- The chain reported for one page entry of the map, if any: pages with a
falsy canonical and pages whose followed chain has length 1 yield nothing. -/
def chain_for (pages : List (String × Option String)) (p : String × Option String) :
    Option (List String) :=
  match p.2 with
  | none => none
  | some c =>
    if c = "" then none
    else
      let chain := followChain pages [p.1] (some c)
      if chain.length > 1 then some chain else none

lemma chain_fold (pages : List (String × Option String)) :
    ∀ (l : List (String × Option String)) (acc : List (List String)),
      l.foldl
        (fun chains p =>
          match p.2 with
          | none => chains
          | some c =>
            if c = "" then chains
            else
              let chain := followChain pages [p.1] (some c)
              if chain.length > 1 then chains ++ [chain] else chains)
        acc = acc ++ l.filterMap (chain_for pages) := by
  intro l
  induction l with
  | nil => intro acc; simp
  | cons p t ih =>
    intro acc
    simp only [List.foldl_cons, List.filterMap_cons]
    cases hp : p.2 with
    | none => simp [hp, chain_for, ih]
    | some c =>
      by_cases hc : c = ""
      · subst hc
        simp [hp, chain_for, ih]
      · by_cases hl : (followChain pages [p.1] (some c)).length > 1
        · simp [hp, chain_for, hc, hl, ih, List.append_assoc]
        · simp [hp, chain_for, hc, hl, ih]

/-- The two-page map of claim C10's concrete instance. -/
def mutualPagesCD : List (String × Option String) :=
  [("https://t.com/c", some "https://t.com/d"),
   ("https://t.com/d", some "https://t.com/c")]

/-- Claim C10: canonical_chain_check emits exactly one chain per page whose
canonical value is truthy and whose followed chain is longer than one
element, in page order and starting at that page (the filterMap form);
chains sharing pages are not deduplicated — the mutual-canonical pair yields
two reported chains, one starting at each of the two pages. -/
theorem canonical_chain_check_per_page :
    (∀ pages, canonical_chain_check pages = pages.filterMap (chain_for pages)) ∧
    (canonical_chain_check mutualPagesCD).length = 2 ∧
    (canonical_chain_check mutualPagesCD).map (fun ch => ch.head?) =
      [some "https://t.com/c", some "https://t.com/d"] := by
  refine ⟨?_, rfl, rfl⟩
  intro pages
  unfold canonical_chain_check
  rw [chain_fold pages pages []]
  simp

/-! Section: Claims about the crawler (C2, C8) -/

lemma is_same_origin_refl (a : String) : is_same_origin a a = true := by
  simp [is_same_origin]

/-- The crawl invariant: the seen set is duplicate-free, the queue and the
results keys live inside the seen set, the results keys are duplicate-free,
the seen set never exceeds max 1 max_pages entries, and every seen URL is
same-origin with the seed. -/
def CrawlInv (seed : String) (max_pages : Nat) (s : CrawlState) : Prop :=
  s.seen.Nodup ∧ s.to_visit ⊆ s.seen ∧ s.results ⊆ s.seen ∧ s.results.Nodup ∧
  s.seen.length ≤ max 1 max_pages ∧ ∀ u ∈ s.seen, is_same_origin seed u = true

lemma insert_results_nodup (l : List String) (url : String) (h : l.Nodup) :
    (if url ∈ l then l else l ++ [url]).Nodup := by
  split
  · exact h
  · rename_i hni
    simp [List.nodup_append, h, hni]

lemma insert_results_sub (l : List String) (url : String) (t : List String)
    (hl : l ⊆ t) (hu : url ∈ t) : (if url ∈ l then l else l ++ [url]) ⊆ t := by
  split
  · exact hl
  · intro x hx
    rcases List.mem_append.mp hx with h | h
    · exact hl h
    · simp only [List.mem_singleton] at h
      subst h
      exact hu

lemma enqueue_one_inv (seed base : String) (max_pages : Nat) (a : String)
    (st : List String × List String)
    (hnd : st.1.Nodup) (hsub : st.2 ⊆ st.1) (hb : st.1.length ≤ max 1 max_pages)
    (ho : ∀ u ∈ st.1, is_same_origin seed u = true) :
    (enqueue_one seed max_pages base st a).1.Nodup ∧
    (enqueue_one seed max_pages base st a).2 ⊆ (enqueue_one seed max_pages base st a).1 ∧
    (enqueue_one seed max_pages base st a).1.length ≤ max 1 max_pages ∧
    (∀ u ∈ (enqueue_one seed max_pages base st a).1, is_same_origin seed u = true) ∧
    st.1 ⊆ (enqueue_one seed max_pages base st a).1 := by
  unfold enqueue_one
  cases normalize_url base a with
  | none => exact ⟨hnd, hsub, hb, ho, fun _ h => h⟩
  | some n =>
    dsimp only
    by_cases hcond : n ≠ "" ∧ is_same_origin seed n = true ∧ n ∉ st.1 ∧ st.1.length < max_pages
    · rw [if_pos hcond]
      obtain ⟨hne, hso, hnot, hlen⟩ := hcond
      refine ⟨?_, ?_, ?_, ?_, ?_⟩
      · simp [List.nodup_append, hnd, hnot]
      · intro u hu
        rcases List.mem_append.mp hu with h | h
        · exact List.mem_append.mpr (Or.inl (hsub h))
        · exact List.mem_append.mpr (Or.inr h)
      · have h1 : st.1.length + 1 ≤ max_pages := hlen
        have h2 : max_pages ≤ max 1 max_pages := le_max_right 1 max_pages
        simpa using le_trans h1 h2
      · intro u hu
        rcases List.mem_append.mp hu with h | h
        · exact ho u h
        · simp only [List.mem_singleton] at h
          subst h
          exact hso
      · exact List.subset_append_left _ _
    · rw [if_neg hcond]
      exact ⟨hnd, hsub, hb, ho, fun _ h => h⟩

lemma enqueue_links_inv (seed base : String) (max_pages : Nat) (hrefs : List String) :
    ∀ st : List String × List String,
      st.1.Nodup → st.2 ⊆ st.1 → st.1.length ≤ max 1 max_pages →
      (∀ u ∈ st.1, is_same_origin seed u = true) →
      (enqueue_links seed max_pages base hrefs st).1.Nodup ∧
      (enqueue_links seed max_pages base hrefs st).2 ⊆
        (enqueue_links seed max_pages base hrefs st).1 ∧
      (enqueue_links seed max_pages base hrefs st).1.length ≤ max 1 max_pages ∧
      (∀ u ∈ (enqueue_links seed max_pages base hrefs st).1, is_same_origin seed u = true) ∧
      st.1 ⊆ (enqueue_links seed max_pages base hrefs st).1 := by
  induction hrefs with
  | nil => intro st h1 h2 h3 h4; exact ⟨h1, h2, h3, h4, fun _ h => h⟩
  | cons a t ih =>
    intro st h1 h2 h3 h4
    have hone := enqueue_one_inv seed base max_pages a st h1 h2 h3 h4
    have hrec := ih (enqueue_one seed max_pages base st a)
      hone.1 hone.2.1 hone.2.2.1 hone.2.2.2.1
    rw [show enqueue_links seed max_pages base (a :: t) st
          = enqueue_links seed max_pages base t (enqueue_one seed max_pages base st a)
        from rfl]
    exact ⟨hrec.1, hrec.2.1, hrec.2.2.1, hrec.2.2.2.1,
      List.Subset.trans hone.2.2.2.2 hrec.2.2.2.2⟩

lemma crawlStep_inv (web : String → FetchRes) (seed : String) (max_pages : Nat)
    (s : CrawlState) (h : CrawlInv seed max_pages s) :
    CrawlInv seed max_pages (crawlStep web seed max_pages s) := by
  obtain ⟨hnd, hq, hr, hrnd, hb, ho⟩ := h
  unfold crawlStep
  cases hv : s.to_visit with
  | nil => exact ⟨hnd, hq, hr, hrnd, hb, ho⟩
  | cons url rest =>
    have hurl : url ∈ s.seen := hq (hv ▸ List.mem_cons_self url rest)
    have hrest : rest ⊆ s.seen := fun u hu => hq (hv ▸ List.mem_cons_of_mem url hu)
    dsimp only
    by_cases hok : resp_ok (web url) = true
    · rw [if_pos hok]
      have hE := enqueue_links_inv seed url max_pages (web url).hrefs
        (s.seen, rest) hnd hrest hb ho
      refine ⟨hE.1, hE.2.1, ?_, insert_results_nodup s.results url hrnd, hE.2.2.1, hE.2.2.2.1⟩
      exact insert_results_sub s.results url _
        (List.Subset.trans hr hE.2.2.2.2) (hE.2.2.2.2 hurl)
    · rw [if_neg hok]
      exact ⟨hnd, hrest, insert_results_sub s.results url s.seen hr hurl,
        insert_results_nodup s.results url hrnd, hb, ho⟩

lemma initState_inv (seed : String) (max_pages : Nat) :
    CrawlInv seed max_pages (initState seed) := by
  refine ⟨by simp [initState], by simp [initState], by simp [initState],
    by simp [initState], ?_, ?_⟩
  · show (1 : Nat) ≤ max 1 max_pages
    exact le_max_left 1 max_pages
  · intro u hu
    simp only [initState, List.mem_singleton] at hu
    subst hu
    exact is_same_origin_refl _

lemma crawlRun_inv (web : String → FetchRes) (seed : String) (max_pages fuel : Nat) :
    CrawlInv seed max_pages (crawlRun web seed max_pages fuel) := by
  induction fuel with
  | zero => exact initState_inv seed max_pages
  | succ n ih => exact crawlStep_inv web seed max_pages _ ih

/-- Claim C2 (amended): for every positive page budget, after any number of
worker iterations the seen set holds at most pageBudget URLs and the results
map at most pageBudget page entries — so the final report also has at most
pageBudget pages.  (For pageBudget = 0 the claim fails: the constructor
unconditionally marks the seed seen and the worker fetches it, see
seed_crawled_at_budget_zero; in general the bound is max 1 pageBudget.) -/
theorem crawl_budget (web : String → FetchRes) (seed : String) (max_pages fuel : Nat)
    (h : 1 ≤ max_pages) :
    (crawlRun web seed max_pages fuel).seen.length ≤ max_pages ∧
    (crawlRun web seed max_pages fuel).results.length ≤ max_pages := by
  obtain ⟨hnd, hq, hr, hrnd, hb, ho⟩ := crawlRun_inv web seed max_pages fuel
  rw [max_eq_right h] at hb
  exact ⟨hb, le_trans (List.subperm_of_subset hrnd hr).length_le hb⟩

/-- Witness for crawl_budget: budget 2 on the oracle webA, after 3
iterations. -/
theorem crawl_budget_witness :
    1 ≤ 2 ∧ (crawlRun webA "https://a.com/" 2 3).seen.length ≤ 2 ∧
    (crawlRun webA "https://a.com/" 2 3).results.length ≤ 2 := by
  have h := crawl_budget webA "https://a.com/" 2 3 (by decide)
  exact ⟨by decide, h.1, h.2⟩

/-- Counterexample to claim C2 as stated ("for every pageBudget"): with
pageBudget = 0 the seen set already holds the seed right after construction
and the worker still fetches the seed, so the final report holds one page
entry — both exceed the budget of 0. -/
theorem seed_crawled_at_budget_zero :
    (initState "https://a.com/").seen.length = 1 ∧
    (crawlRun webErr "https://a.com/" 0 1).results.length = 1 ∧
    ¬ (1 : Nat) ≤ 0 :=
  ⟨rfl, rfl, by decide⟩

/-- Claim C8: in every crawl, every URL ever fetched (every key of the
results map, at any number of worker iterations) is same-origin with the
seed URL — even when cross-origin links are discovered on crawled pages,
they are never fetched. -/
theorem crawl_same_origin (web : String → FetchRes) (seed : String) (max_pages fuel : Nat)
    (u : String) (hu : u ∈ (crawlRun web seed max_pages fuel).results) :
    is_same_origin seed u = true := by
  obtain ⟨hnd, hq, hr, hrnd, hb, ho⟩ := crawlRun_inv web seed max_pages fuel
  exact ho u (hr hu)

/-- Witness for crawl_same_origin: on the oracle webA every page links the
cross-origin URL "https://evil.com/z"; the crawl discovers it but fetches
only same-origin URLs, and the cross-origin URL is never in the results. -/
theorem crawl_same_origin_witness :
    "https://a.com/" ∈ (crawlRun webA "https://a.com/" 5 3).results ∧
    is_same_origin "https://a.com/" "https://a.com/" = true ∧
    "https://evil.com/z" ∈ (webA "https://a.com/").hrefs ∧
    "https://evil.com/z" ∉ (crawlRun webA "https://a.com/" 5 3).results ∧
    is_same_origin "https://a.com/" "https://evil.com/z" = false := by
  have hm : "https://a.com/" ∈ (crawlRun webA "https://a.com/" 5 3).results := by decide
  exact ⟨hm, crawl_same_origin webA "https://a.com/" 5 3 "https://a.com/" hm,
    by decide, by decide, rfl⟩

end SeoAudit
